import Mathlib

/-!
# Verification of the OVERWATCH trending core

Shallow embedding of the trend-state engine of the OVERWATCH repository:

* `overwatch/processing/trending/objects/object.py` — `TrendingObject.__init__`,
  `TrendingObject.processHist` (artifact path construction);
* `overwatch/processing/trending/objects/stdDev.py` — `StdDevTrending.extractTrendValue`,
  `StdDevTrending.retrieveHist`;
* `overwatch/processing/trending/info.py` — `TrendingInfo.__init__`, `TrendingInfo._validate`,
  `TrendingInfo._validateHist`, `TrendingInfo._validateTrendingClass`, `TrendingInfo.addAlarm`.

Sample values are `(value, error)` pairs of numpy floats in the source; the buffer code never
performs arithmetic on them (they are only stored, copied and deleted), so the embedding is
parametric in the value type `V`.
-/

namespace Overwatch

/-- The mutable state of a `TrendingObject` (`object.py`, `TrendingObject.__init__`):
`name`, `desc`, `subsystemName` are stored as given; `currentEntry = 0`;
`maxEntries = parameters.get(CON.ENTRIES, 100)`; `trendedValues` starts as the empty
`(0, 2)` numpy array, embedded as an empty list of `(value, error)` pairs.
The fields `parameters`, `histogramNames`, `histogram` and `drawOptions` play no part in the
claims and are omitted. -/
structure TrendingObjectState (V : Type) where
  name : String
  desc : String
  subsystemName : String
  currentEntry : Nat
  maxEntries : Nat
  trendedValues : List (V × V)
deriving DecidableEq

/-- `TrendingObject.__init__` (`object.py` lines 31-44): the freshly constructed state.
`entriesParam` is `parameters.get(CON.ENTRIES, ...)`: `none` means the key `CON.ENTRIES` is
absent and the default `100` is used. -/
def initialTrendingObject (V : Type) (name desc subsystemName : String)
    (entriesParam : Option Nat) : TrendingObjectState V :=
  { name := name
    desc := desc
    subsystemName := subsystemName
    currentEntry := 0
    maxEntries := entriesParam.getD 100
    trendedValues := [] }

/-- `StdDevTrending.extractTrendValue` (`stdDev.py` lines 19-26).  The histogram argument is
embedded as `hist : Option (V × V)`: `some (v, e)` means the external calls
`hist.GetStdDev(), hist.GetStdDevError()` return the pair `(v, e)`; `none` means the external
call raises.  The result is `Except`: `.ok s` is normal return with new state `s`, `.error s`
is an exception propagating to the caller with the object left in state `s`.

The method first runs the eviction/increment step and only then extracts:
```
if self.currentEntry > self.maxEntries:
    self.trendedValues = np.delete(self.trendedValues, 0, axis=0)
else:
    self.currentEntry += 1
newValue = hist.GetStdDev(), hist.GetStdDevError()
self.trendedValues = np.append(self.trendedValues, [newValue], axis=0)
```
`np.delete(a, 0, axis=0)` raises `IndexError` when the array is empty; that is the first
`.error` branch below (state unchanged, since the assignment did not happen). -/
def extractTrendValue {V : Type} (hist : Option (V × V)) (s : TrendingObjectState V) :
    Except (TrendingObjectState V) (TrendingObjectState V) :=
  if s.maxEntries < s.currentEntry then
    match s.trendedValues with
    | [] => .error s
    | _ :: rest =>
      match hist with
      | none => .error { s with trendedValues := rest }
      | some newValue => .ok { s with trendedValues := rest ++ [newValue] }
  else
    match hist with
    | none => .error { s with currentEntry := s.currentEntry + 1 }
    | some newValue =>
      .ok { s with currentEntry := s.currentEntry + 1
                   trendedValues := s.trendedValues ++ [newValue] }

/-- The state of the Python object after a call, whether the call returned normally or
raised: an exception does not roll the object back. -/
def afterCall {α : Type} : Except α α → α
  | .ok s => s
  | .error s => s

/-- Iterated successful appends: `extractTrendValue` called once per element of `vals`, each
call extracting successfully. -/
def appendAll {V : Type} (vals : List (V × V)) (s : TrendingObjectState V) :
    TrendingObjectState V :=
  vals.foldl (fun s v => afterCall (extractTrendValue (some v) s)) s

theorem appendAll_append {V : Type} (vals : List (V × V)) (v : V × V)
    (s : TrendingObjectState V) :
    appendAll (vals ++ [v]) s = afterCall (extractTrendValue (some v) (appendAll vals s)) := by
  simp [appendAll, List.foldl_append]

/-- Closed form for a run of `N` successful appends from a fresh object with
`maxEntries = C`: the write counter saturates at `C + 1` and the buffer holds the last
`min N (C + 1)` values — one more than the configured capacity. -/
theorem appendAll_initial {V : Type} (nm ds sb : String) (C : Nat) (vals : List (V × V)) :
    appendAll vals (initialTrendingObject V nm ds sb (some C)) =
      { name := nm
        desc := ds
        subsystemName := sb
        currentEntry := min vals.length (C + 1)
        maxEntries := C
        trendedValues := vals.drop (vals.length - min vals.length (C + 1)) } := by
  induction vals using List.reverseRecOn with
  | nil => simp [appendAll, initialTrendingObject]
  | append_singleton xs v ih =>
    rw [appendAll_append, ih]
    by_cases h : xs.length ≤ C
    · have hmin : min xs.length (C + 1) = xs.length := by omega
      have hmin' : min (xs.length + 1) (C + 1) = xs.length + 1 := by omega
      have hcond : ¬ C < xs.length := by omega
      simp [extractTrendValue, afterCall, hmin, hmin', hcond]
    · have hmin : min xs.length (C + 1) = C + 1 := by omega
      have hmin' : min (xs.length + 1) (C + 1) = C + 1 := by omega
      have hcond : C < xs.length := by omega
      have hne : xs.drop (xs.length - (C + 1)) ≠ [] := by
        intro hnil
        have := congrArg List.length hnil
        simp [List.length_drop] at this
        omega
      obtain ⟨a, l, hd⟩ := List.exists_cons_of_ne_nil hne
      have htail : l = xs.drop (xs.length - C) := by
        have := List.tail_drop xs (xs.length - (C + 1))
        rw [hd] at this
        simpa [show xs.length - (C + 1) + 1 = xs.length - C by omega] using this
      have hdropapp : (xs ++ [v]).drop (xs.length + 1 - (C + 1)) =
          xs.drop (xs.length - C) ++ [v] := by
        have hn : xs.length + 1 - (C + 1) = xs.length - C := by omega
        rw [hn, List.drop_append_of_le_length (by omega)]
      simp only [extractTrendValue, afterCall, hmin, hmin', hcond, if_pos hcond, hd]
      simp [htail, hmin', hcond]
      exact (List.drop_append_of_le_length (by omega)).symm

/-- C1: the claim states that after `N` successful appends with capacity `C` the buffer length
is `min N C`, and in particular never exceeds the capacity.  Evaluating the embedded
`extractTrendValue` at capacity `C = 3` and `N = 4` successful appends: the buffer holds `4`
samples, exceeding the capacity (the eviction check `currentEntry > maxEntries` is off by
one, so the buffer grows to `C + 1`). -/
theorem C1_buffer_length_exceeds_capacity :
    (appendAll [((1 : Int), (0 : Int)), (2, 0), (3, 0), (4, 0)]
      (initialTrendingObject Int "trend" "descr" "SUB" (some 3))).trendedValues.length = 4 ∧
    ¬ (appendAll [((1 : Int), (0 : Int)), (2, 0), (3, 0), (4, 0)]
      (initialTrendingObject Int "trend" "descr" "SUB" (some 3))).trendedValues.length ≤ 3 ∧
    min 4 3 = 3 := by
  decide

/-- C2: the claim states that with capacity 3, after appending the extracted values
`(1,0), (2,0), (3,0), (4,0)`, the buffer equals `[(2,0), (3,0), (4,0)]` (the oldest evicted)
and `writeCount = 4`.  Evaluating the embedded code: no eviction happens on the 4th append;
the buffer holds all four values (`writeCount = currentEntry` is indeed `4`). -/
theorem C2_fourth_append_does_not_evict :
    appendAll [((1 : Int), (0 : Int)), (2, 0), (3, 0), (4, 0)]
        (initialTrendingObject Int "trend" "descr" "SUB" (some 3)) =
      { name := "trend", desc := "descr", subsystemName := "SUB", currentEntry := 4,
        maxEntries := 3, trendedValues := [(1, 0), (2, 0), (3, 0), (4, 0)] } ∧
    [((1 : Int), (0 : Int)), (2, 0), (3, 0), (4, 0)] ≠ [(2, 0), (3, 0), (4, 0)] := by
  exact ⟨rfl, by decide⟩

/-- C3 counterexample: the claim states that every successful append increments
`currentEntry` by exactly 1, so after 3 appends it would be 3; with `maxEntries = 1`, after
3 successful appends the embedded code leaves `currentEntry = 2`: the counter saturates at
`maxEntries + 1` and eviction-appends do not increment it. -/
theorem C3_counterexample_writeCount_saturates :
    (appendAll [((1 : Int), (0 : Int)), (2, 0), (3, 0)]
      (initialTrendingObject Int "trend" "descr" "SUB" (some 1))).currentEntry = 2 ∧
    (2 : Nat) ≠ 3 := by
  exact ⟨rfl, by decide⟩

/-- C3 amended: after `N` successful appends from a fresh object with `maxEntries = C`,
`currentEntry = min N (C + 1)`: it increments by exactly 1 per successful append only until
it reaches `C + 1`, after which it is frozen (appends in the eviction regime do not touch
it); in particular it is monotonically non-decreasing along any further append. -/
theorem C3_amended_writeCount_saturates_and_is_monotone (V : Type) (nm ds sb : String)
    (C : Nat) (vals : List (V × V)) (v : V × V) :
    (appendAll vals (initialTrendingObject V nm ds sb (some C))).currentEntry
        = min vals.length (C + 1) ∧
    (appendAll vals (initialTrendingObject V nm ds sb (some C))).currentEntry ≤
      (appendAll (vals ++ [v]) (initialTrendingObject V nm ds sb (some C))).currentEntry := by
  rw [appendAll_initial, appendAll_initial]
  refine ⟨rfl, ?_⟩
  simp

/-- C4 counterexample: the claim states that when extraction raises, the state is left
exactly as before the call.  On a fresh object with `maxEntries = 3`, a failing extraction
propagates the exception with `currentEntry` already incremented to 1: the pre-extraction
increment/eviction step is not rolled back. -/
theorem C4_counterexample_failed_append_mutates :
    extractTrendValue (V := Int) none (initialTrendingObject Int "trend" "descr" "SUB" (some 3)) =
      .error { name := "trend", desc := "descr", subsystemName := "SUB", currentEntry := 1,
               maxEntries := 3, trendedValues := [] } ∧
    ({ name := "trend", desc := "descr", subsystemName := "SUB", currentEntry := 1,
       maxEntries := 3, trendedValues := [] } : TrendingObjectState Int) ≠
      initialTrendingObject Int "trend" "descr" "SUB" (some 3) := by
  exact ⟨rfl, by decide⟩

/-- C4 amended: `extractTrendValue` is never atomic on failure.  From any state reachable by
successful appends, a failing extraction raises with the object in a state different from
the pre-call state: the buffer gains no new sample, but if at most `maxEntries` samples were
ever appended the write counter has been spuriously incremented, and otherwise the oldest
sample has already been deleted (and is lost). -/
theorem C4_amended_failure_is_never_atomic (V : Type) (nm ds sb : String) (C : Nat)
    (vals : List (V × V)) :
    ∃ e : TrendingObjectState V,
      extractTrendValue none (appendAll vals (initialTrendingObject V nm ds sb (some C))) =
        .error e ∧
      e ≠ appendAll vals (initialTrendingObject V nm ds sb (some C)) ∧
      e = (if vals.length ≤ C then
            { appendAll vals (initialTrendingObject V nm ds sb (some C)) with
              currentEntry :=
                (appendAll vals (initialTrendingObject V nm ds sb (some C))).currentEntry + 1 }
           else
            { appendAll vals (initialTrendingObject V nm ds sb (some C)) with
              trendedValues :=
                (appendAll vals
                  (initialTrendingObject V nm ds sb (some C))).trendedValues.tail }) := by
  rw [appendAll_initial]
  by_cases h : vals.length ≤ C
  · have hmin : min vals.length (C + 1) = vals.length := by omega
    have hcond : ¬ C < vals.length := by omega
    simp only [hmin]
    refine ⟨{ name := nm, desc := ds, subsystemName := sb,
              currentEntry := vals.length + 1, maxEntries := C,
              trendedValues := vals.drop (vals.length - vals.length) }, ?_, ?_, ?_⟩
    · simp [extractTrendValue, hcond]
    · intro heq
      have hce := congrArg TrendingObjectState.currentEntry heq
      simp at hce
    · simp [h]
  · have hmin : min vals.length (C + 1) = C + 1 := by omega
    have hcond : C < vals.length := by omega
    have hne : vals.drop (vals.length - (C + 1)) ≠ [] := by
      intro hnil
      have := congrArg List.length hnil
      simp [List.length_drop] at this
      omega
    obtain ⟨a, l, hd⟩ := List.exists_cons_of_ne_nil hne
    simp only [hmin]
    refine ⟨{ name := nm, desc := ds, subsystemName := sb,
              currentEntry := C + 1, maxEntries := C,
              trendedValues := l }, ?_, ?_, ?_⟩
    · simp [extractTrendValue, hcond, hd]
    · intro heq
      have hlen := congrArg (fun st => st.trendedValues.length) heq
      simp [hd] at hlen
    · simp [h, hd]

/-!
## `info.py`: `TrendingInfo` construction, validation and alarm attachment

`TrendingInfo.__init__` receives dynamically typed Python values.  `PyObj` is a closed
universe of the Python values the validation code distinguishes: strings, integers, lists,
`Alarm` instances and `None`.  (The diagnostic keyword arguments `expected=`/`got=` attached
to `TrendingInfoException` are reporting payload only and are not modelled; only the `msg`
kind is.)
-/

/-- A dynamically typed Python value, as distinguished by `TrendingInfo`'s validation. -/
inductive PyObj : Type where
  | pyStr (s : String)
  | pyInt (n : Int)
  | pyList (xs : List PyObj)
  | pyAlarm (ref : Nat)
  | pyNone

/-- `isinstance(obj, basestring)`. -/
def isStr : PyObj → Bool
  | .pyStr _ => true
  | _ => false

/-- `isinstance(alarm, Alarm)`. -/
def isAlarm : PyObj → Bool
  | .pyAlarm _ => true
  | _ => false

/-- `isinstance(alarms, list)`. -/
def isList : PyObj → Bool
  | .pyList _ => true
  | _ => false

/-- Python `len(obj)`: defined for strings and lists, raises `TypeError` (here `none`)
otherwise. -/
def pyLen : PyObj → Option Nat
  | .pyStr s => some s.length
  | .pyList xs => some xs.length
  | _ => none

/-- Python iteration `for x in obj`: a list yields its elements, a string yields its
characters as one-character strings; other values are not iterable. -/
def pyIter : PyObj → Option (List PyObj)
  | .pyStr s => some (s.data.map fun c => .pyStr (String.singleton c))
  | .pyList xs => some xs
  | _ => none

/-- The `msg=` kind of a raised `TrendingInfoException` (`info.py`).  The commented-out
trending-class check would have used a fifth kind; it does not exist in the live code. -/
inductive TIErr : Type where
  | wrongType
  | noHistograms
  | notCollection
  | wrongAlarmType
deriving DecidableEq

/-- `TrendingInfo._validate` (`info.py` lines 80-84): type check against `basestring`. -/
def validate (obj : PyObj) : Except TIErr PyObj :=
  if isStr obj then .ok obj else .error .wrongType

/-- `TrendingInfo._validateHist` (`info.py` lines 86-96):
`len(objects)` raising `TypeError` gives `NotCollection`; fewer than one element gives
`NoHistograms`; then every iterated element is passed through `_validate`, the first
non-string raising `WrongType`; on success the collection is returned unchanged. -/
def validateHist (objects : PyObj) : Except TIErr PyObj :=
  match pyLen objects with
  | none => .error .notCollection
  | some n =>
    if n < 1 then .error .noHistograms
    else if ((pyIter objects).getD []).all isStr then .ok objects
    else .error .wrongType

/-- `TrendingInfo._validateTrendingClass` (`info.py` lines 98-102): the `issubclass` check
is commented out in the source; the function returns its argument unchecked. -/
def validateTrendingClass (cls : PyObj) : Except TIErr PyObj :=
  .ok cls

/-- The fields of a successfully constructed `TrendingInfo` (`info.py` `__slots__`). -/
structure TrendingInfo where
  name : PyObj
  desc : PyObj
  histogramNames : PyObj
  trendingClass : PyObj
  alarms : List PyObj

/-- `TrendingInfo.__init__` (`info.py` lines 40-55): validates `name`, `desc`,
`histogramNames`, `trendingClass` in that order (the first raised exception propagates) and
stores the validated values; `_alarms` starts empty. -/
def initTrendingInfo (name desc histogramNames trendingClass : PyObj) :
    Except TIErr TrendingInfo :=
  match validate name with
  | .error e => .error e
  | .ok n =>
    match validate desc with
    | .error e => .error e
    | .ok d =>
      match validateHist histogramNames with
      | .error e => .error e
      | .ok h =>
        match validateTrendingClass trendingClass with
        | .error e => .error e
        | .ok t =>
          .ok { name := n, desc := d, histogramNames := h, trendingClass := t, alarms := [] }

/-- The loop of `TrendingInfo.addAlarm`: each `Alarm` element is appended to `self._alarms`
before the next is examined; the first non-`Alarm` element raises `WrongAlarmType`.  The
error payload carries the value of `self._alarms` at the moment of the raise (the appends
already performed are not rolled back). -/
def addAlarmLoop (xs cur : List PyObj) : Except (TIErr × List PyObj) (List PyObj) :=
  match xs with
  | [] => .ok cur
  | a :: rest =>
    if isAlarm a then addAlarmLoop rest (cur ++ [a])
    else .error (.wrongAlarmType, cur)

/-- `TrendingInfo.addAlarm` (`info.py` lines 57-64): a non-list argument is wrapped in a
singleton list, then the loop runs over the elements. -/
def addAlarm (arg : PyObj) (cur : List PyObj) : Except (TIErr × List PyObj) (List PyObj) :=
  match arg with
  | .pyList xs => addAlarmLoop xs cur
  | other => addAlarmLoop [other] cur

theorem string_length_data (s : String) : s.length = s.data.length := rfl

theorem pyLen_eq_iter_length (o : PyObj) : pyLen o = (pyIter o).map List.length := by
  cases o with
  | pyStr s =>
    show some s.length =
      some ((s.data.map fun c => PyObj.pyStr (String.singleton c)).length)
    rw [List.length_map]
    rfl
  | pyInt n => rfl
  | pyList xs => rfl
  | pyAlarm r => rfl
  | pyNone => rfl

/-- Full classification of `_validateHist`'s behaviour by the shape of its argument. -/
theorem validateHist_classification (o : PyObj) :
    (validateHist o = .error .notCollection ↔ pyLen o = none) ∧
    (validateHist o = .error .noHistograms ↔ pyLen o = some 0) ∧
    (validateHist o = .error .wrongType ↔
      ∃ elems, pyIter o = some elems ∧ elems ≠ [] ∧ elems.any (fun x => !isStr x) = true) ∧
    (validateHist o = .ok o ↔
      ∃ elems, pyIter o = some elems ∧ elems ≠ [] ∧ elems.all isStr = true) ∧
    (∀ o', validateHist o = .ok o' → o' = o) := by
  cases o with
  | pyStr s =>
    have hv : validateHist (PyObj.pyStr s) =
        (if s.length < 1 then Except.error TIErr.noHistograms
         else if (s.data.map fun c => PyObj.pyStr (String.singleton c)).all isStr then
           Except.ok (PyObj.pyStr s)
         else Except.error TIErr.wrongType) := rfl
    have hall : (s.data.map fun c => PyObj.pyStr (String.singleton c)).all isStr = true := by
      simp [Function.comp, isStr]
    by_cases hs : s.data = []
    · have hlen : s.length = 0 := by rw [string_length_data, hs]; rfl
      have hv' : validateHist (PyObj.pyStr s) = .error .noHistograms := by
        rw [hv, hlen]; simp
      refine ⟨?_, ?_, ?_, ?_, ?_⟩ <;> simp [hv', pyLen, pyIter, hlen, hs]
    · have hlen : ¬ s.length < 1 := by
        rw [string_length_data]
        have := List.length_pos.mpr hs
        omega
      have hv' : validateHist (PyObj.pyStr s) = .ok (PyObj.pyStr s) := by
        rw [hv, if_neg hlen, hall]
        simp
      have hany0 : (s.data.map fun c => PyObj.pyStr (String.singleton c)).any
          (fun x => !isStr x) = false := by
        simp [Function.comp, isStr]
      refine ⟨?_, ?_, ?_, ?_, ?_⟩
      · simp [hv', pyLen]
      · simp [hv', pyLen]
        omega
      · simp [hv', pyIter, isStr]
      · simp [hv', pyIter, hs, isStr]
      · simp [hv']
  | pyInt n => simp [validateHist, pyLen, pyIter]
  | pyAlarm r => simp [validateHist, pyLen, pyIter]
  | pyNone => simp [validateHist, pyLen, pyIter]
  | pyList xs =>
    cases xs with
    | nil => simp [validateHist, pyLen, pyIter]
    | cons a rest =>
      by_cases hall : (a :: rest).all isStr = true
      · have hany : (a :: rest).any (fun x => !isStr x) = false := by
          rw [List.any_eq_false]
          intro x hx
          simp [List.all_eq_true.mp hall x hx]
        simp [validateHist, pyLen, pyIter, hall, hany]
        exact ⟨List.all_eq_true.mp hall a (List.mem_cons_self a rest),
               fun x hx => List.all_eq_true.mp hall x (List.mem_cons_of_mem a hx)⟩
      · have hall' := hall
        rw [List.all_eq_true] at hall'
        push_neg at hall'
        obtain ⟨x, hx, hxs⟩ := hall'
        have hxf : isStr x = false := Bool.eq_false_iff.mpr hxs
        have hany : (a :: rest).any (fun y => !isStr y) = true := by
          rw [List.any_eq_true]
          exact ⟨x, hx, by simp [hxf]⟩
        simp [validateHist, pyLen, pyIter, hall, hany]
        constructor
        · rcases List.mem_cons.mp hx with rfl | hmem
          · exact Or.inl hxf
          · exact Or.inr ⟨x, hmem, hxf⟩
        · intro ha
          rcases List.mem_cons.mp hx with rfl | hmem
          · rw [ha] at hxf; cases hxf
          · exact ⟨x, hmem, hxf⟩

theorem initTrendingInfo_invalid_name (name desc hns tc : PyObj)
    (hn : isStr name = false) :
    initTrendingInfo name desc hns tc = .error .wrongType := by
  simp [initTrendingInfo, validate, hn]

theorem initTrendingInfo_invalid_desc (name desc hns tc : PyObj)
    (hn : isStr name = true) (hd : isStr desc = false) :
    initTrendingInfo name desc hns tc = .error .wrongType := by
  simp [initTrendingInfo, validate, hn, hd]

theorem initTrendingInfo_valid_reduce (name desc hns tc : PyObj)
    (hn : isStr name = true) (hd : isStr desc = true) :
    initTrendingInfo name desc hns tc =
      (match validateHist hns with
       | .error e => .error e
       | .ok h => .ok { name := name, desc := desc, histogramNames := h,
                        trendingClass := tc, alarms := [] }) := by
  simp [initTrendingInfo, validate, hn, hd, validateTrendingClass]

/-- C5 counterexample: with `name = "n"` and `desc = "d"` both strings and
`histogramNames = [1]` a sized non-empty list holding a non-string element, construction
fails with `WrongType`; this contradicts the claimed "fails with `WrongType` iff `name` or
`description` is not a string". -/
theorem C5_counterexample_element_triggers_wrongType :
    initTrendingInfo (.pyStr "n") (.pyStr "d") (.pyList [.pyInt 1]) .pyNone =
      .error .wrongType ∧
    isStr (.pyStr "n") = true ∧ isStr (.pyStr "d") = true :=
  ⟨rfl, rfl, rfl⟩

/-- C5 amended: construction fails with `WrongType` iff `name` or `description` is not a
string, or `requiredHistogramNames` is a sized non-empty collection with a non-string
element; with `NotCollection` iff `name` and `description` are strings and
`requiredHistogramNames` has no length; with `NoHistograms` iff `name` and `description` are
strings and it has zero elements; and construction succeeds iff `name` and `description`
are strings and `requiredHistogramNames` is a sized non-empty collection of strings, in
which case all four fields are stored unchanged (the metric/trending class entirely
unchecked) and the alarm list starts empty. -/
theorem C5_amended_validation_classification (name desc hns tc : PyObj) :
    (initTrendingInfo name desc hns tc = .error .wrongType ↔
      (isStr name = false ∨ isStr desc = false ∨
        ∃ elems, pyIter hns = some elems ∧ elems ≠ [] ∧
          elems.any (fun o => !isStr o) = true)) ∧
    (initTrendingInfo name desc hns tc = .error .notCollection ↔
      (isStr name = true ∧ isStr desc = true ∧ pyLen hns = none)) ∧
    (initTrendingInfo name desc hns tc = .error .noHistograms ↔
      (isStr name = true ∧ isStr desc = true ∧ pyLen hns = some 0)) ∧
    (∀ info, initTrendingInfo name desc hns tc = .ok info ↔
      (isStr name = true ∧ isStr desc = true ∧
        (∃ elems, pyIter hns = some elems ∧ elems ≠ [] ∧ elems.all isStr = true) ∧
        info = { name := name, desc := desc, histogramNames := hns,
                 trendingClass := tc, alarms := [] })) := by
  obtain ⟨h1, h2, h3, h4, h5⟩ := validateHist_classification hns
  by_cases hn : isStr name = true
  · by_cases hd : isStr desc = true
    · have hred := initTrendingInfo_valid_reduce name desc hns tc hn hd
      have hchain : ∀ e : TIErr,
          initTrendingInfo name desc hns tc = .error e ↔ validateHist hns = .error e := by
        intro e
        rw [hred]
        rcases validateHist hns with e' | o <;> simp
      have hchain2 : ∀ info, initTrendingInfo name desc hns tc = .ok info ↔
          (∃ o, validateHist hns = .ok o ∧
            info = { name := name, desc := desc, histogramNames := o,
                     trendingClass := tc, alarms := [] }) := by
        intro info
        rw [hred]
        rcases validateHist hns with e' | o <;> simp [eq_comm]
      refine ⟨?_, ?_, ?_, ?_⟩
      · rw [hchain TIErr.wrongType, h3]
        simp [hn, hd]
      · rw [hchain TIErr.notCollection, h1]
        simp [hn, hd]
      · rw [hchain TIErr.noHistograms, h2]
        simp [hn, hd]
      · intro info
        rw [hchain2 info]
        constructor
        · rintro ⟨o, hvo, rfl⟩
          have ho : o = hns := h5 o hvo
          subst ho
          exact ⟨hn, hd, h4.mp hvo, rfl⟩
        · rintro ⟨-, -, hex, rfl⟩
          exact ⟨hns, h4.mpr hex, rfl⟩
    · have hdf : isStr desc = false := Bool.eq_false_iff.mpr hd
      have hfinal := initTrendingInfo_invalid_desc name desc hns tc hn hdf
      refine ⟨?_, ?_, ?_, ?_⟩
      · simp [hfinal, hdf]
      · simp [hfinal, hdf]
      · simp [hfinal, hdf]
      · intro info
        simp [hfinal, hdf]
  · have hnf : isStr name = false := Bool.eq_false_iff.mpr hn
    have hfinal := initTrendingInfo_invalid_name name desc hns tc hnf
    refine ⟨?_, ?_, ?_, ?_⟩
    · simp [hfinal, hnf]
    · simp [hfinal, hnf]
    · simp [hfinal, hnf]
    · intro info
      simp [hfinal, hnf]

/-- C6 counterexample: `create("", "desc", ["h1"], metric)` does not fail: the validation
only checks `isinstance(obj, basestring)`, and the empty string is a string, so
construction succeeds with the empty name stored. -/
theorem C6_counterexample_empty_name_accepted :
    initTrendingInfo (.pyStr "") (.pyStr "desc") (.pyList [.pyStr "h1"]) .pyNone =
      .ok { name := .pyStr "", desc := .pyStr "desc",
            histogramNames := .pyList [.pyStr "h1"], trendingClass := .pyNone,
            alarms := [] } :=
  rfl

/-- C6 amended: construction does not reject empty strings — `create("", "desc", ["h1"], m)`
succeeds — and after any successful construction `name` and `description` are strings,
though possibly empty (only their type is validated). -/
theorem C6_amended_name_desc_are_strings (name desc hns tc : PyObj) (info : TrendingInfo)
    (h : initTrendingInfo name desc hns tc = .ok info) :
    isStr info.name = true ∧ isStr info.desc = true := by
  by_cases hn : isStr name = true
  · by_cases hd : isStr desc = true
    · rw [initTrendingInfo_valid_reduce name desc hns tc hn hd] at h
      rcases hv : validateHist hns with e | o <;> rw [hv] at h
      · cases h
      · cases h
        exact ⟨hn, hd⟩
    · rw [initTrendingInfo_invalid_desc name desc hns tc hn (Bool.eq_false_iff.mpr hd)] at h
      cases h
  · rw [initTrendingInfo_invalid_name name desc hns tc (Bool.eq_false_iff.mpr hn)] at h
    cases h

/-- C6 amended witness: the concrete construction with an empty name succeeds and the
stored name and description are strings. -/
theorem C6_amended_name_desc_are_strings_witness :
    isStr (PyObj.pyStr "") = true ∧ isStr (PyObj.pyStr "desc") = true :=
  C6_amended_name_desc_are_strings (.pyStr "") (.pyStr "desc") (.pyList [.pyStr "h1"])
    .pyNone
    { name := .pyStr "", desc := .pyStr "desc", histogramNames := .pyList [.pyStr "h1"],
      trendingClass := .pyNone, alarms := [] }
    rfl

/-- C7 counterexample: constructing with `trendingClass = 42` — not a trending/metric class
at all — succeeds; no `WrongMetric` (or any) validation of the metric argument happens at
construction time, contradicting the claimed eager failure. -/
theorem C7_counterexample_unknown_metric_accepted :
    initTrendingInfo (.pyStr "n") (.pyStr "d") (.pyList [.pyStr "h1"]) (.pyInt 42) =
      .ok { name := .pyStr "n", desc := .pyStr "d",
            histogramNames := .pyList [.pyStr "h1"], trendingClass := .pyInt 42,
            alarms := [] } :=
  rfl

/-- C7 amended: `_validateTrendingClass` performs no check (the `issubclass` test is
commented out in the source): it returns its argument unchanged, and the outcome of
construction never depends on the `trendingClass` argument — the result for any `tc` equals
the result for `None` with `tc` stored in its place.  An unsupported variant can therefore
only surface later, at use time. -/
theorem C7_amended_trendingClass_never_validated (name desc hns tc : PyObj) :
    validateTrendingClass tc = .ok tc ∧
    initTrendingInfo name desc hns tc =
      (initTrendingInfo name desc hns .pyNone).map
        (fun info => { info with trendingClass := tc }) := by
  refine ⟨rfl, ?_⟩
  by_cases hn : isStr name = true
  · by_cases hd : isStr desc = true
    · rw [initTrendingInfo_valid_reduce name desc hns tc hn hd,
          initTrendingInfo_valid_reduce name desc hns .pyNone hn hd]
      rcases validateHist hns with e | o <;> simp [Except.map]
    · rw [initTrendingInfo_invalid_desc name desc hns tc hn (Bool.eq_false_iff.mpr hd),
          initTrendingInfo_invalid_desc name desc hns .pyNone hn (Bool.eq_false_iff.mpr hd)]
      rfl
  · rw [initTrendingInfo_invalid_name name desc hns tc (Bool.eq_false_iff.mpr hn),
        initTrendingInfo_invalid_name name desc hns .pyNone (Bool.eq_false_iff.mpr hn)]
    rfl

/-- C10: `addAlarm` is not atomic on failure: given a list whose first `k` elements are
`Alarm`s and whose next element is not, it raises `WrongAlarmType`, but the `k` valid
alarms have already been appended to `self._alarms` and remain attached (the error value
carries the mutated alarm list `cur ++ good`). -/
theorem C10_addAlarm_appends_prefix_before_raising (cur good rest : List PyObj)
    (bad : PyObj) (hgood : ∀ a ∈ good, isAlarm a = true) (hbad : isAlarm bad = false) :
    addAlarm (.pyList (good ++ bad :: rest)) cur =
      .error (.wrongAlarmType, cur ++ good) := by
  show addAlarmLoop (good ++ bad :: rest) cur = .error (.wrongAlarmType, cur ++ good)
  induction good generalizing cur with
  | nil => simp [addAlarmLoop, hbad]
  | cons a as ih =>
    have ha := hgood a (List.mem_cons_self a as)
    have hstep : addAlarmLoop ((a :: as) ++ bad :: rest) cur =
        addAlarmLoop (as ++ bad :: rest) (cur ++ [a]) := by
      simp [addAlarmLoop, ha]
    rw [hstep, ih (cur ++ [a]) (fun x hx => hgood x (List.mem_cons_of_mem a hx))]
    simp

/-- C10 witness: with one valid alarm followed by an integer, the call raises
`WrongAlarmType` and the alarm list has gained exactly the valid alarm. -/
theorem C10_addAlarm_appends_prefix_before_raising_witness :
    (∀ a ∈ [PyObj.pyAlarm 7], isAlarm a = true) ∧ isAlarm (PyObj.pyInt 3) = false ∧
    addAlarm (.pyList ([PyObj.pyAlarm 7] ++ PyObj.pyInt 3 :: [])) [] =
      .error (.wrongAlarmType, [] ++ [PyObj.pyAlarm 7]) :=
  ⟨by intro a ha; simp at ha; rw [ha]; rfl, rfl,
   C10_addAlarm_appends_prefix_before_raising [] [.pyAlarm 7] [] (.pyInt 3)
     (by intro a ha; simp at ha; rw [ha]; rfl) rfl⟩

/-!
## `stdDev.py`: `StdDevTrending.retrieveHist`

The method builds a `ROOT.TGraphErrors(self.maxEntries)` — a graph of `maxEntries` points
all initialised to `(0, 0)` with zero errors — sets its name to `self.name` and title to
`self.desc`, and for every index `i` of the buffer overwrites point `i` with
`SetPoint(i, i, value_i)` and `SetPointError(i, 0, error_i)`.  ROOT's `SetPoint` and
`SetPointError` grow the point array (zero-filled) when the index is beyond the current
size.  The cosmetic calls (`SetTimeDisplay`, `SetMarkerStyle`, `gStyle`) carry no data and
are not modelled. -/

/-- One point of a `TGraphErrors`: coordinates `(x, y)` and errors `(ex, ey)`.  The x
coordinate only ever receives the loop index, so it is a `Nat` here. -/
structure TGraphPoint (V : Type) where
  x : Nat
  y : V
  ex : V
  ey : V
deriving DecidableEq

/-- The data content of a `ROOT.TGraphErrors`. -/
structure TGraphErrors (V : Type) where
  name : String
  title : String
  points : List (TGraphPoint V)
deriving DecidableEq

/-- A freshly allocated graph point: `TGraphErrors(n)` zero-initialises its points. -/
def emptyPoint (V : Type) [Zero V] : TGraphPoint V :=
  { x := 0, y := 0, ex := 0, ey := 0 }

/-- Replace the element at index `i` (when present) by `f` of it. -/
def modifyIdx {α : Type} : List α → Nat → (α → α) → List α
  | [], _, _ => []
  | a :: as, 0, f => f a :: as
  | a :: as, n + 1, f => a :: modifyIdx as n f

theorem modifyIdx_length {α : Type} (l : List α) (i : Nat) (f : α → α) :
    (modifyIdx l i f).length = l.length := by
  induction l generalizing i with
  | nil => rfl
  | cons a as ih => cases i <;> simp [modifyIdx, ih]

theorem get?_modifyIdx_ne {α : Type} (l : List α) (i j : Nat) (f : α → α) (h : j ≠ i) :
    (modifyIdx l i f).get? j = l.get? j := by
  induction l generalizing i j with
  | nil => rfl
  | cons a as ih =>
    cases i with
    | zero =>
      cases j with
      | zero => exact absurd rfl h
      | succ j => simp [modifyIdx]
    | succ i =>
      cases j with
      | zero => simp [modifyIdx]
      | succ j =>
        have : j ≠ i := fun hc => h (by rw [hc])
        simp [modifyIdx]
        have := ih i j this
        simpa using this

theorem get?_modifyIdx_eq {α : Type} (l : List α) (i : Nat) (f : α → α) (h : i < l.length) :
    (modifyIdx l i f).get? i = (l.get? i).map f := by
  induction l generalizing i with
  | nil => simp at h
  | cons a as ih =>
    cases i with
    | zero => simp [modifyIdx]
    | succ i =>
      simp [modifyIdx]
      have := ih i (by simpa using h)
      simpa using this

/-- `TGraphErrors::SetPoint(i, x, y)`: overwrite the coordinates of point `i`, growing the
point array zero-filled up to `i + 1` points when `i` is beyond the current size. -/
def rootSetPoint {V : Type} [Zero V] (g : TGraphErrors V) (i x : Nat) (y : V) :
    TGraphErrors V :=
  let ps := if g.points.length ≤ i
            then g.points ++ List.replicate (i + 1 - g.points.length) (emptyPoint V)
            else g.points
  { g with points := modifyIdx ps i (fun p => { p with x := x, y := y }) }

/-- `TGraphErrors::SetPointError(i, ex, ey)`: overwrite the errors of point `i`, with the
same growth behaviour as `SetPoint`. -/
def rootSetPointError {V : Type} [Zero V] (g : TGraphErrors V) (i : Nat) (ex ey : V) :
    TGraphErrors V :=
  let ps := if g.points.length ≤ i
            then g.points ++ List.replicate (i + 1 - g.points.length) (emptyPoint V)
            else g.points
  { g with points := modifyIdx ps i (fun p => { p with ex := ex, ey := ey }) }

/-- The body of the `for i in range(len(self.trendedValues))` loop of `retrieveHist`:
`SetPoint(i, i, trendedValues[i, 0])` then `SetPointError(i, 0, trendedValues[i, 1])`. -/
def retrieveStep {V : Type} [Zero V] (tv : List (V × V)) (g : TGraphErrors V) (i : Nat) :
    TGraphErrors V :=
  let p := (tv.get? i).getD (0, 0)
  rootSetPointError (rootSetPoint g i i p.1) i 0 p.2

/-- `StdDevTrending.retrieveHist` (`stdDev.py` lines 28-39): allocate
`TGraphErrors(self.maxEntries)`, name/title it after the trend, and fill one point per
buffer entry. -/
def retrieveHist {V : Type} [Zero V] (s : TrendingObjectState V) : TGraphErrors V :=
  (List.range s.trendedValues.length).foldl (retrieveStep s.trendedValues)
    { name := s.name, title := s.desc,
      points := List.replicate s.maxEntries (emptyPoint V) }

/-- The method call `self.retrieveHist()` as a state transformer: the body reads
`self.trendedValues`, `self.name`, `self.desc`, `self.maxEntries` and assigns no field of
`self`, so the receiver after the call is the receiver before it block-for-block; the
returned graph is the first component. -/
def retrieveHistCall {V : Type} [Zero V] (s : TrendingObjectState V) :
    TGraphErrors V × TrendingObjectState V :=
  (retrieveHist s, s)

theorem rootSetPoint_length {V : Type} [Zero V] (g : TGraphErrors V) (i x : Nat) (y : V) :
    (rootSetPoint g i x y).points.length = max (i + 1) g.points.length := by
  unfold rootSetPoint
  by_cases h : g.points.length ≤ i <;>
    simp [h, modifyIdx_length, List.length_append, List.length_replicate] <;> omega

theorem rootSetPointError_length {V : Type} [Zero V] (g : TGraphErrors V) (i : Nat)
    (ex ey : V) :
    (rootSetPointError g i ex ey).points.length = max (i + 1) g.points.length := by
  unfold rootSetPointError
  by_cases h : g.points.length ≤ i <;>
    simp [h, modifyIdx_length, List.length_append, List.length_replicate] <;> omega

theorem rootSetPoint_get?_ne {V : Type} [Zero V] (g : TGraphErrors V) (i x : Nat) (y : V)
    (j : Nat) (hji : j ≠ i) (hj : j < g.points.length) :
    (rootSetPoint g i x y).points.get? j = g.points.get? j := by
  unfold rootSetPoint
  by_cases h : g.points.length ≤ i
  · simp only [h, if_true]
    rw [get?_modifyIdx_ne _ _ _ _ hji]
    exact List.get?_append hj
  · simp only [h, if_false]
    rw [get?_modifyIdx_ne _ _ _ _ hji]

theorem rootSetPointError_get?_ne {V : Type} [Zero V] (g : TGraphErrors V) (i : Nat)
    (ex ey : V) (j : Nat) (hji : j ≠ i) (hj : j < g.points.length) :
    (rootSetPointError g i ex ey).points.get? j = g.points.get? j := by
  unfold rootSetPointError
  by_cases h : g.points.length ≤ i
  · simp only [h, if_true]
    rw [get?_modifyIdx_ne _ _ _ _ hji]
    exact List.get?_append hj
  · simp only [h, if_false]
    rw [get?_modifyIdx_ne _ _ _ _ hji]

theorem rootSetPoint_get?_eq {V : Type} [Zero V] (g : TGraphErrors V) (i x : Nat) (y : V) :
    ∃ ex ey : V, (rootSetPoint g i x y).points.get? i =
      some { x := x, y := y, ex := ex, ey := ey } := by
  unfold rootSetPoint
  by_cases h : g.points.length ≤ i
  · have hlen : i < (g.points ++ List.replicate (i + 1 - g.points.length)
        (emptyPoint V)).length := by
      simp [List.length_append, List.length_replicate]
      omega
    simp only [h, if_true]
    rw [get?_modifyIdx_eq _ _ _ hlen, List.get?_eq_get hlen]
    exact ⟨_, _, rfl⟩
  · have hlen : i < g.points.length := by omega
    simp only [h, if_false]
    rw [get?_modifyIdx_eq _ _ _ hlen, List.get?_eq_get hlen]
    exact ⟨_, _, rfl⟩

theorem rootSetPointError_get?_eq {V : Type} [Zero V] (g : TGraphErrors V) (i : Nat)
    (ex ey : V) (p : TGraphPoint V) (hp : g.points.get? i = some p) :
    (rootSetPointError g i ex ey).points.get? i =
      some { x := p.x, y := p.y, ex := ex, ey := ey } := by
  have hlen : i < g.points.length := by
    rcases List.get?_eq_some.mp hp with ⟨h, -⟩
    exact h
  have h : ¬ g.points.length ≤ i := by omega
  unfold rootSetPointError
  simp only [h, if_false]
  rw [get?_modifyIdx_eq _ _ _ hlen, hp]
  rfl

theorem retrieveStep_length {V : Type} [Zero V] (tv : List (V × V)) (g : TGraphErrors V)
    (i : Nat) :
    (retrieveStep tv g i).points.length = max (i + 1) g.points.length := by
  simp [retrieveStep, rootSetPointError_length, rootSetPoint_length]

theorem retrieveStep_get?_ne {V : Type} [Zero V] (tv : List (V × V)) (g : TGraphErrors V)
    (i j : Nat) (hji : j ≠ i) (hj : j < g.points.length) :
    (retrieveStep tv g i).points.get? j = g.points.get? j := by
  unfold retrieveStep
  rw [rootSetPointError_get?_ne _ _ _ _ _ hji
        (by rw [rootSetPoint_length]; omega),
      rootSetPoint_get?_ne _ _ _ _ _ hji hj]

theorem retrieveStep_get?_self {V : Type} [Zero V] (tv : List (V × V)) (g : TGraphErrors V)
    (i : Nat) (pr : V × V) (hp : tv.get? i = some pr) :
    (retrieveStep tv g i).points.get? i =
      some { x := i, y := pr.1, ex := 0, ey := pr.2 } := by
  unfold retrieveStep
  rw [hp]
  show (rootSetPointError (rootSetPoint g i i pr.1) i 0 pr.2).points.get? i =
    some { x := i, y := pr.1, ex := 0, ey := pr.2 }
  obtain ⟨ex, ey, hpt⟩ := rootSetPoint_get?_eq g i i pr.1
  rw [rootSetPointError_get?_eq _ _ _ _ _ hpt]

/-- Content of the graph produced by the `retrieveHist` loop: after processing the first
`k` buffer indices, the point list has `max g₀.len k` entries and point `j < k` holds
`(j, value_j)` with errors `(0, error_j)`. -/
theorem retrieveFold_spec {V : Type} [Zero V] (tv : List (V × V)) (g0 : TGraphErrors V) :
    ∀ k, k ≤ tv.length →
      ((List.range k).foldl (retrieveStep tv) g0).points.length =
        max g0.points.length k ∧
      ∀ j, j < k → ∃ pr : V × V, tv.get? j = some pr ∧
        ((List.range k).foldl (retrieveStep tv) g0).points.get? j =
          some { x := j, y := pr.1, ex := 0, ey := pr.2 } := by
  intro k
  induction k with
  | zero => intro _; simp
  | succ k ih =>
    intro hk
    have hk' : k ≤ tv.length := by omega
    obtain ⟨ihlen, ihget⟩ := ih hk'
    have hsplit : (List.range (k + 1)).foldl (retrieveStep tv) g0 =
        retrieveStep tv ((List.range k).foldl (retrieveStep tv) g0) k := by
      rw [List.range_succ, List.foldl_append]
      rfl
    constructor
    · rw [hsplit, retrieveStep_length, ihlen]
      omega
    · intro j hj
      have hkin : k < tv.length := by omega
      by_cases hjk : j = k
      · subst hjk
        obtain ⟨pr, hpr⟩ : ∃ pr, tv.get? j = some pr :=
          ⟨tv.get ⟨j, hkin⟩, List.get?_eq_get hkin⟩
        refine ⟨pr, hpr, ?_⟩
        rw [hsplit, retrieveStep_get?_self _ _ _ _ hpr]
      · have hjlt : j < k := by omega
        obtain ⟨pr, hpr, hget⟩ := ihget j hjlt
        refine ⟨pr, hpr, ?_⟩
        rw [hsplit, retrieveStep_get?_ne _ _ _ _ hjk (by rw [ihlen]; omega), hget]

theorem retrieveFold_name_title {V : Type} [Zero V] (tv : List (V × V))
    (g0 : TGraphErrors V) (k : Nat) :
    ((List.range k).foldl (retrieveStep tv) g0).name = g0.name ∧
    ((List.range k).foldl (retrieveStep tv) g0).title = g0.title := by
  induction k with
  | zero => exact ⟨rfl, rfl⟩
  | succ k ih =>
    rw [List.range_succ, List.foldl_append]
    exact ⟨ih.1, ih.2⟩

/-- C9: `retrieveHist` is an idempotent read-only view: the receiver is unchanged by the
call, a second call on the resulting state returns an identical graph, the graph carries the
trend's name and description, and for every buffer entry `j` holding `(value, error)` the
graph's point `j` is `(x, y) = (j, value)` with errors `(0, error)` — index within the
current buffer, 0-based, oldest first. -/
theorem C9_retrieveHist_idempotent_readonly_series (V : Type) [Zero V]
    (s : TrendingObjectState V) :
    (retrieveHistCall s).2 = s ∧
    (retrieveHistCall ((retrieveHistCall s).2)).1 = (retrieveHistCall s).1 ∧
    (retrieveHistCall s).1.name = s.name ∧
    (retrieveHistCall s).1.title = s.desc ∧
    ∀ j, ∀ vj ej : V, s.trendedValues.get? j = some (vj, ej) →
      (retrieveHistCall s).1.points.get? j =
        some { x := j, y := vj, ex := 0, ey := ej } := by
  refine ⟨rfl, rfl,
    (retrieveFold_name_title s.trendedValues _ s.trendedValues.length).1,
    (retrieveFold_name_title s.trendedValues _ s.trendedValues.length).2, ?_⟩
  intro j vj ej hj
  have hjl : j < s.trendedValues.length := (List.get?_eq_some.mp hj).1
  obtain ⟨-, hget⟩ :=
    retrieveFold_spec s.trendedValues
      { name := s.name, title := s.desc,
        points := List.replicate s.maxEntries (emptyPoint V) }
      s.trendedValues.length le_rfl
  obtain ⟨pr, hpr, hpt⟩ := hget j hjl
  rw [hj] at hpr
  obtain rfl : pr = (vj, ej) := (Option.some.injEq _ _).mp hpr.symm
  exact hpt

/-- C9 witness: on a concrete buffer `[(5, 1), (7, 2)]` the call leaves the state unchanged
and point 1 of the returned graph is `(1, 7)` with errors `(0, 2)`. -/
theorem C9_retrieveHist_idempotent_readonly_series_witness :
    (retrieveHistCall (V := Int)
        { name := "n", desc := "d", subsystemName := "S", currentEntry := 2,
          maxEntries := 3, trendedValues := [(5, 1), (7, 2)] }).1.points.get? 1 =
      some { x := 1, y := 7, ex := 0, ey := 2 } :=
  (C9_retrieveHist_idempotent_readonly_series Int
    { name := "n", desc := "d", subsystemName := "S", currentEntry := 2,
      maxEntries := 3, trendedValues := [(5, 1), (7, 2)] }).2.2.2.2 1 7 2 rfl

/-!
## `object.py`: `TrendingObject.processHist` — artifact path construction

```
outputNameWithoutExt = self.name.replace("/", "_") + '.\x7b\x7d'
outputPath = os.path.join(self.parameters[CON.DIR_PREFIX], CON.TRENDING,
                          self.subsystemName, '\x7b\x7d', outputNameWithoutExt)
imgFile = outputPath.format(CON.IMAGE, self.parameters[CON.EXTENSION])
jsonFile = outputPath.format(CON.JSON, 'json')
```

The constants module (`overwatch/processing/trending/constants.py`) is not among the
sources.  `CON.TRENDING` is kept abstract (a `trending` parameter below); `CON.IMAGE` and
`CON.JSON` are modelled from the spec, which fixes the artifact directory components as
`img` and `json`. -/

/-- The character `\x7b`. -/
def lbrace : Char := Char.ofNat 123

/-- The character `\x7d`. -/
def rbrace : Char := Char.ofNat 125

/-- Python `name.replace("/", "_")` for the single-character pattern: substitute every
slash by an underscore. -/
def slashToUnderscore (s : String) : String :=
  ⟨s.data.map fun c => if c = '/' then '_' else c⟩

/-- POSIX `os.path.join` for one extra component: an absolute component replaces the path;
otherwise a separator is inserted unless the accumulated path is empty or already ends with
one. -/
def osPathJoin2 (a b : String) : String :=
  if b.data.head? = some '/' then b
  else if a.data = [] ∨ a.data.getLast? = some '/' then a ++ b
  else a ++ "/" ++ b

/-- `os.path.join(a, rest...)`: left fold of the two-component join. -/
def osPathJoin (a : String) (rest : List String) : String :=
  rest.foldl osPathJoin2 a

/-- Python `str.format` with auto-numbered replacement fields, on the character list:
`\x7b\x7d` consumes the next positional argument, `\x7b\x7b` and `\x7d\x7d` are brace
escapes, and — as in Python — a lone brace (`ValueError`) or a field with no argument left
(`IndexError`) is a formatting error, `none`.  Named and explicitly numbered fields are not
modelled; the paths built by `processHist` only ever contain auto-numbered fields unless
the trend name itself injects other field syntax. -/
def pyFormatGo : List Char → List String → Option (List Char)
  | [], _ => some []
  | c :: cs, args =>
    if c = lbrace then
      match cs with
      | [] => none
      | c2 :: cs2 =>
        if c2 = lbrace then (pyFormatGo cs2 args).map (lbrace :: ·)
        else if c2 = rbrace then
          match args with
          | [] => none
          | a :: args2 => (pyFormatGo cs2 args2).map (a.data ++ ·)
        else none
    else if c = rbrace then
      match cs with
      | [] => none
      | c2 :: cs2 =>
        if c2 = rbrace then (pyFormatGo cs2 args).map (rbrace :: ·) else none
    else (pyFormatGo cs args).map (c :: ·)

/-- Python `s.format(args...)`. -/
def pyFormat (s : String) (args : List String) : Option String :=
  (pyFormatGo s.data args).map fun cs => ⟨cs⟩

/-- Modelled from the spec: `CON.JSON`, the JSON artifact directory component — the
constants module is missing from the sources and the spec fixes the JSON documents under
`.../json/`. -/
def CON_JSON : String := "json"

/-- Modelled from the spec: `CON.IMAGE`, the image artifact directory component `img`. -/
def CON_IMAGE : String := "img"

/-- The artifact paths built by `TrendingObject.processHist` (`object.py` lines 96-101):
`(imgFile, jsonFile)`.  `dirPrefix` is `self.parameters[CON.DIR_PREFIX]`, `trending` the
abstract `CON.TRENDING` constant, `ext` is `self.parameters[CON.EXTENSION]`; `none` means
the Python `format` call raises. -/
def processHistPaths (dirPrefix trending subsystemName name ext : String) :
    Option String × Option String :=
  let outputNameWithoutExt := slashToUnderscore name ++ ".\x7b\x7d"
  let outputPath := osPathJoin dirPrefix
    [trending, subsystemName, "\x7b\x7d", outputNameWithoutExt]
  (pyFormat outputPath [CON_IMAGE, ext], pyFormat outputPath [CON_JSON, "json"])

/-- The spec's `outputPathPrefix` — the directory root under which all rendered artifacts
are written: every path `processHist` builds starts with
`os.path.join(dirPrefix, CON.TRENDING)`. -/
def outputPathPrefix (dirPrefix trending : String) : String :=
  osPathJoin2 dirPrefix trending

theorem string_data_append (a b : String) : (a ++ b).data = a.data ++ b.data := rfl

theorem slashToUnderscore_data (s : String) :
    (slashToUnderscore s).data = s.data.map fun c => if c = '/' then '_' else c := rfl

theorem slashToUnderscore_no_slash (s : String) :
    ∀ c ∈ (slashToUnderscore s).data, c ≠ '/' := by
  intro c hc
  rw [slashToUnderscore_data] at hc
  obtain ⟨c0, hc0, hce⟩ := List.mem_map.mp hc
  by_cases h : c0 = '/'
  · rw [← hce, if_pos h]; decide
  · rw [← hce, if_neg h]; exact h

theorem slashToUnderscore_braceFree (s : String)
    (hb : ∀ c ∈ s.data, c ≠ lbrace ∧ c ≠ rbrace) :
    ∀ c ∈ (slashToUnderscore s).data, c ≠ lbrace ∧ c ≠ rbrace := by
  intro c hc
  rw [slashToUnderscore_data] at hc
  obtain ⟨c0, hc0, hce⟩ := List.mem_map.mp hc
  by_cases h : c0 = '/'
  · rw [← hce, if_pos h]
    exact ⟨by decide, by decide⟩
  · rw [← hce, if_neg h]
    exact hb c0 hc0

theorem getLast?_append_right {α : Type} (x y : List α) (hy : y ≠ []) :
    (x ++ y).getLast? = y.getLast? := by
  rw [List.getLast?_append]
  cases h : y.getLast? with
  | some l => rfl
  | none => exact absurd (List.getLast?_eq_none_iff.mp h) hy

theorem head?_append_left {α : Type} (x y : List α) (hx : x ≠ []) :
    (x ++ y).head? = x.head? := by
  rw [List.head?_append]
  cases h : x.head? with
  | some c => rfl
  | none => exact absurd (List.head?_eq_none_iff.mp h) hx

theorem osPathJoin2_sep (a b : String) (ha : a.data ≠ [])
    (ha2 : a.data.getLast? ≠ some '/') (hb : b.data.head? ≠ some '/') :
    osPathJoin2 a b = a ++ "/" ++ b := by
  have h2 : ¬ (a.data = [] ∨ a.data.getLast? = some '/') := by
    rintro (h | h)
    exacts [ha h, ha2 h]
  simp [osPathJoin2, hb, h2]

theorem pyFormatGo_noBrace (cs rest : List Char) (args : List String)
    (h : ∀ c ∈ cs, c ≠ lbrace ∧ c ≠ rbrace) :
    pyFormatGo (cs ++ rest) args = (pyFormatGo rest args).map (cs ++ ·) := by
  induction cs with
  | nil =>
    cases h' : pyFormatGo rest args <;> simp [h']
  | cons c cs ih =>
    obtain ⟨hc1, hc2⟩ := h c (List.mem_cons_self c cs)
    have ih' := ih fun x hx => h x (List.mem_cons_of_mem c hx)
    rw [List.cons_append]
    conv_lhs => unfold pyFormatGo
    rw [if_neg hc1, if_neg hc2, ih']
    cases h' : pyFormatGo rest args <;> simp [h']

theorem pyFormatGo_field (rest : List Char) (a : String) (args : List String) :
    pyFormatGo (lbrace :: rbrace :: rest) (a :: args) =
      (pyFormatGo rest args).map (a.data ++ ·) :=
  rfl

theorem pyFormat_two_fields (A B : List Char) (a1 a2 : String)
    (hA : ∀ c ∈ A, c ≠ lbrace ∧ c ≠ rbrace) (hB : ∀ c ∈ B, c ≠ lbrace ∧ c ≠ rbrace) :
    pyFormatGo (A ++ lbrace :: rbrace :: (B ++ [lbrace, rbrace])) [a1, a2] =
      some (A ++ a1.data ++ B ++ a2.data) := by
  rw [pyFormatGo_noBrace A _ _ hA, pyFormatGo_field, pyFormatGo_noBrace B _ _ hB,
    pyFormatGo_field]
  show (some ((A ++ ·) ((a1.data ++ ·) ((B ++ ·) ((a2.data ++ ·) []))))) = _
  simp [List.append_assoc]

/-- No character of the list is a brace. -/
abbrev braceFree (l : List Char) : Prop := ∀ c ∈ l, c ≠ lbrace ∧ c ≠ rbrace

theorem braceFree_append {x y : List Char} (hx : braceFree x) (hy : braceFree y) :
    braceFree (x ++ y) := by
  intro c hc
  rcases List.mem_append.mp hc with h | h
  exacts [hx c h, hy c h]

theorem braceFree_cons {c0 : Char} {y : List Char} (h0 : c0 ≠ lbrace ∧ c0 ≠ rbrace)
    (hy : braceFree y) : braceFree (c0 :: y) := by
  intro c hc
  rcases List.mem_cons.mp hc with rfl | h
  exacts [h0, hy c h]

theorem braceFree_nil : braceFree [] := by
  intro c hc
  cases hc

/-- C8 counterexample: for the trend name `\x7b\x7d` the claimed JSON path does not exist:
the name survives slash substitution unchanged, its braces become extra replacement fields
of the `format` template, and both `format` calls fail (Python raises `IndexError`), so
nothing is written at all. -/
theorem C8_counterexample_brace_name_breaks_format :
    (processHistPaths "/data" "trending" "EMC" "\x7b\x7d" "png").2 = none ∧
    (processHistPaths "/data" "trending" "EMC" "\x7b\x7d" "png").1 = none ∧
    slashToUnderscore "\x7b\x7d" = "\x7b\x7d" :=
  ⟨rfl, rfl, rfl⟩

/-- C8 amended: for every trend name free of brace characters (and well-formed path
components: non-empty, brace-free, not beginning or ending in a separator), the JSON
document path is built by substituting every `/` of the trend name by `_` and equals
`outputPathPrefix/<subsystem>/json/<substituted name>.json`, where `outputPathPrefix` is
the artifact root `os.path.join(dirPrefix, CON.TRENDING)`; the image goes to the
corresponding `img` path with the configured extension; the substituted name contains no
slash and is the character-wise `/ → _` image of the trend name. -/
theorem C8_amended_artifact_paths (dirPrefix trending subsystemName name ext : String)
    (hD0 : dirPrefix.data ≠ []) (hDl : dirPrefix.data.getLast? ≠ some '/')
    (hDb : braceFree dirPrefix.data)
    (hT0 : trending.data ≠ []) (hTh : trending.data.head? ≠ some '/')
    (hTl : trending.data.getLast? ≠ some '/') (hTb : braceFree trending.data)
    (hS0 : subsystemName.data ≠ []) (hSh : subsystemName.data.head? ≠ some '/')
    (hSl : subsystemName.data.getLast? ≠ some '/') (hSb : braceFree subsystemName.data)
    (hNb : braceFree name.data) :
    (processHistPaths dirPrefix trending subsystemName name ext).2 =
      some (outputPathPrefix dirPrefix trending ++ "/" ++ subsystemName ++ "/" ++ CON_JSON
        ++ "/" ++ slashToUnderscore name ++ ".json") ∧
    (processHistPaths dirPrefix trending subsystemName name ext).1 =
      some (outputPathPrefix dirPrefix trending ++ "/" ++ subsystemName ++ "/" ++ CON_IMAGE
        ++ "/" ++ slashToUnderscore name ++ "." ++ ext) ∧
    (∀ c ∈ (slashToUnderscore name).data, c ≠ '/') ∧
    (slashToUnderscore name).data = name.data.map (fun c => if c = '/' then '_' else c) := by
  have hsl : ("/" : String).data = ['/'] := rfl
  have hbrs : ("\x7b\x7d" : String).data = [lbrace, rbrace] := rfl
  have hdot : (".\x7b\x7d" : String).data = '.' :: [lbrace, rbrace] := rfl
  have hn'slash := slashToUnderscore_no_slash name
  have hn'brace : braceFree (slashToUnderscore name).data :=
    slashToUnderscore_braceFree name hNb
  -- the four os.path.join steps, each inserting a separator
  have e1 : osPathJoin2 dirPrefix trending = dirPrefix ++ "/" ++ trending :=
    osPathJoin2_sep _ _ hD0 hDl hTh
  have j1ne : (dirPrefix ++ "/" ++ trending).data ≠ [] := by
    simp [string_data_append, hsl]
  have j1l : (dirPrefix ++ "/" ++ trending).data.getLast? ≠ some '/' := by
    rw [string_data_append, getLast?_append_right _ _ hT0]
    exact hTl
  have e2 : osPathJoin2 (dirPrefix ++ "/" ++ trending) subsystemName =
      dirPrefix ++ "/" ++ trending ++ "/" ++ subsystemName :=
    osPathJoin2_sep _ _ j1ne j1l hSh
  have j2ne : (dirPrefix ++ "/" ++ trending ++ "/" ++ subsystemName).data ≠ [] := by
    simp [string_data_append, hsl]
  have j2l : (dirPrefix ++ "/" ++ trending ++ "/" ++ subsystemName).data.getLast?
      ≠ some '/' := by
    rw [string_data_append, getLast?_append_right _ _ hS0]
    exact hSl
  have e3 : osPathJoin2 (dirPrefix ++ "/" ++ trending ++ "/" ++ subsystemName) "\x7b\x7d" =
      dirPrefix ++ "/" ++ trending ++ "/" ++ subsystemName ++ "/" ++ "\x7b\x7d" :=
    osPathJoin2_sep _ _ j2ne j2l (by rw [hbrs]; decide)
  have j3ne :
      (dirPrefix ++ "/" ++ trending ++ "/" ++ subsystemName ++ "/" ++ "\x7b\x7d").data
        ≠ [] := by
    simp [string_data_append, hsl, hbrs]
  have j3l :
      (dirPrefix ++ "/" ++ trending ++ "/" ++ subsystemName ++ "/" ++ "\x7b\x7d").data.getLast?
        ≠ some '/' := by
    rw [string_data_append, getLast?_append_right _ _ (by rw [hbrs]; simp)]
    rw [hbrs]
    decide
  have hnExtH : (slashToUnderscore name ++ ".\x7b\x7d").data.head? ≠ some '/' := by
    rw [string_data_append, List.head?_append]
    cases hdata : (slashToUnderscore name).data with
    | nil => rw [hdot]; decide
    | cons c0 cs =>
      have hc0 : c0 ≠ '/' := hn'slash c0 (by rw [hdata]; exact List.mem_cons_self _ _)
      simp [hc0]
  have e4 : osPathJoin2
      (dirPrefix ++ "/" ++ trending ++ "/" ++ subsystemName ++ "/" ++ "\x7b\x7d")
      (slashToUnderscore name ++ ".\x7b\x7d") =
      dirPrefix ++ "/" ++ trending ++ "/" ++ subsystemName ++ "/" ++ "\x7b\x7d" ++ "/" ++
        (slashToUnderscore name ++ ".\x7b\x7d") :=
    osPathJoin2_sep _ _ j3ne j3l hnExtH
  have hpath : osPathJoin dirPrefix
      [trending, subsystemName, "\x7b\x7d", slashToUnderscore name ++ ".\x7b\x7d"] =
      dirPrefix ++ "/" ++ trending ++ "/" ++ subsystemName ++ "/" ++ "\x7b\x7d" ++ "/" ++
        (slashToUnderscore name ++ ".\x7b\x7d") := by
    show osPathJoin2 (osPathJoin2 (osPathJoin2 (osPathJoin2 dirPrefix trending)
      subsystemName) "\x7b\x7d") (slashToUnderscore name ++ ".\x7b\x7d") = _
    rw [e1, e2, e3, e4]
  -- brace-freeness of the two literal segments of the format template
  have hslashOk : ('/' : Char) ≠ lbrace ∧ ('/' : Char) ≠ rbrace := by decide
  have hdotOk : ('.' : Char) ≠ lbrace ∧ ('.' : Char) ≠ rbrace := by decide
  have hA : braceFree (dirPrefix.data ++ '/' :: trending.data ++ '/' ::
      subsystemName.data ++ ['/']) :=
    braceFree_append (braceFree_append (braceFree_append hDb
      (braceFree_cons hslashOk hTb)) (braceFree_cons hslashOk hSb))
      (braceFree_cons hslashOk braceFree_nil)
  have hB : braceFree ('/' :: (slashToUnderscore name).data ++ ['.']) :=
    braceFree_cons hslashOk
      (braceFree_append hn'brace (braceFree_cons hdotOk braceFree_nil))
  -- the template's character list in segmented form
  have hdataEq :
      (dirPrefix ++ "/" ++ trending ++ "/" ++ subsystemName ++ "/" ++ "\x7b\x7d" ++ "/" ++
        (slashToUnderscore name ++ ".\x7b\x7d")).data =
      (dirPrefix.data ++ '/' :: trending.data ++ '/' :: subsystemName.data ++ ['/']) ++
        lbrace :: rbrace ::
          (('/' :: (slashToUnderscore name).data ++ ['.']) ++ [lbrace, rbrace]) := by
    simp [string_data_append, hsl, hbrs, hdot, List.append_assoc]
    exact ⟨rfl, rfl, rfl, rfl⟩
  have hjson := pyFormat_two_fields
    (dirPrefix.data ++ '/' :: trending.data ++ '/' :: subsystemName.data ++ ['/'])
    ('/' :: (slashToUnderscore name).data ++ ['.']) CON_JSON "json" hA hB
  have himg := pyFormat_two_fields
    (dirPrefix.data ++ '/' :: trending.data ++ '/' :: subsystemName.data ++ ['/'])
    ('/' :: (slashToUnderscore name).data ++ ['.']) CON_IMAGE ext hA hB
  refine ⟨?_, ?_, hn'slash, rfl⟩
  · show pyFormat (osPathJoin dirPrefix
      [trending, subsystemName, "\x7b\x7d", slashToUnderscore name ++ ".\x7b\x7d"])
      [CON_JSON, "json"] = _
    rw [hpath]
    unfold pyFormat
    rw [hdataEq, hjson]
    refine congrArg some (String.ext ?_)
    simp [string_data_append, outputPathPrefix, e1, hsl, List.append_assoc, CON_JSON,
      show (".json" : String).data = '.' :: ("json" : String).data from rfl]
  · show pyFormat (osPathJoin dirPrefix
      [trending, subsystemName, "\x7b\x7d", slashToUnderscore name ++ ".\x7b\x7d"])
      [CON_IMAGE, ext] = _
    rw [hpath]
    unfold pyFormat
    rw [hdataEq, himg]
    refine congrArg some (String.ext ?_)
    simp [string_data_append, outputPathPrefix, e1, hsl, List.append_assoc,
      show ("." : String).data = ['.'] from rfl]

/-- C8 amended witness: the concrete trend name `a/b` under `dirPrefix = /data`,
subsystem `EMC`, extension `png`: the slash is substituted and both artifact paths have the
claimed shape. -/
theorem C8_amended_artifact_paths_witness :
    (processHistPaths "/data" "trending" "EMC" "a/b" "png").2 =
      some (outputPathPrefix "/data" "trending" ++ "/" ++ "EMC" ++ "/" ++ CON_JSON
        ++ "/" ++ slashToUnderscore "a/b" ++ ".json") ∧
    (processHistPaths "/data" "trending" "EMC" "a/b" "png").1 =
      some (outputPathPrefix "/data" "trending" ++ "/" ++ "EMC" ++ "/" ++ CON_IMAGE
        ++ "/" ++ slashToUnderscore "a/b" ++ "." ++ "png") ∧
    (∀ c ∈ (slashToUnderscore "a/b").data, c ≠ '/') ∧
    (slashToUnderscore "a/b").data =
      ("a/b" : String).data.map (fun c => if c = '/' then '_' else c) :=
  C8_amended_artifact_paths "/data" "trending" "EMC" "a/b" "png"
    (by decide) (by decide) (by decide) (by decide) (by decide) (by decide) (by decide)
    (by decide) (by decide) (by decide) (by decide) (by decide)
end Overwatch
